import Mathlib

/-!
Verification of the Instagram DM logger (`src/main.py`, `src/view_conversation.py`)
against its natural-language specification.

The embedding models:
* timestamps as structured values (`TsStr`): a parseable datetime string is a
  wall-clock value (an integer, in arbitrary fixed time units) together with an
  optional UTC offset (`none` = a naive datetime string); an unparsable string
  is kept verbatim.  String equality of rendered timestamps is modelled by
  structural equality of `TsStr` (the ISO rendering is injective).
* the process-local timezone offset (used by Python's `datetime.fromtimestamp`
  and by `astimezone` on naive datetimes) as an explicit integer parameter
  `localOff`; the Melbourne offset as `melbOff`.
* the remote thread as an explicit list of messages, each carrying both its
  raw-API view (`RawItem`) and its client-library view (`Msg`);
* media downloads as an oracle (`Dl`) mapping a URL and an index tag to an
  optional downloaded path (`none` = the download failed).
-/

namespace InstaLog

/-- a timestamp string: either a parseable datetime (wall clock + optional UTC
offset, `none` meaning a naive string) or an unparsable raw string. -/
inductive TsStr where
  | dt (wall : Int) (off : Option Int)
  | raw (s : String)
deriving DecidableEq, Repr

/-- truthiness of a timestamp string under Python (`if timestamp_str:`):
only the empty string is falsy. -/
def TsStr.truthy : TsStr → Bool
  | .dt _ _ => true
  | .raw s => !s.isEmpty

/-- a concrete injective rendering standing in for Python `str()` of a
datetime / string value; only used on the string-comparison fallback paths. -/
def TsStr.render : TsStr → String
  | .dt w none => "dtN:" ++ toString w
  | .dt w (some o) => "dtA:" ++ toString w ++ "," ++ toString o
  | .raw s => s

/-- the value held in `newest_message_timestamp` after `load_existing_messages`:
either a parsed datetime or (after the string-comparison fallback) a raw string. -/
inductive NewestVal where
  | dtv (wall : Int) (off : Option Int)
  | strv (s : String)
deriving DecidableEq, Repr

/-- Python `str()` of the `newest_message_timestamp` value. -/
def NewestVal.render : NewestVal → String
  | .dtv w o => TsStr.render (.dt w o)
  | .strv s => s

/-- Python `>` on two datetimes: both aware compares instants, both naive
compares wall clocks, mixed raises `TypeError` (modelled as `none`). -/
def dtGt : Int × Option Int → Int × Option Int → Option Bool
  | (w₁, some o₁), (w₂, some o₂) => some (decide (w₁ - o₁ > w₂ - o₂))
  | (w₁, none), (w₂, none) => some (decide (w₁ > w₂))
  | _, _ => none

/-- one item of a `multi_media` record (`{"type": ..., "path": ...}`). -/
structure MediaItemRec where
  type : String
  path : String
deriving DecidableEq, Repr

/-- a stored Message Record, i.e. one JSON object of `conversation.json`.
`none` in an `Option` field means the JSON key is absent; `url` is
`Option (Option String)` because the key can be present with a `null` value. -/
structure Record where
  timestamp : Option TsStr
  user : String
  type : String
  content : Option String := none
  photo_path : Option String := none
  video_path : Option String := none
  photo_paths : Option (List String) := none
  media_items : Option (List MediaItemRec) := none
  url : Option (Option String) := none
  item_count : Option Nat := none
  debug_attrs : Bool := false
deriving DecidableEq, Repr

/-- the `media` attribute of a client-library message (photo / video). -/
structure MediaAttr where
  thumbnail_url : Option String := none
  video_url : Option String := none
deriving DecidableEq, Repr

/-- the `link` attribute of a client-library message. -/
structure LinkAttr where
  text : Option String := none
  url : Option String := none
deriving DecidableEq, Repr

/-- a client-library `DirectMessage`.  `Option` fields model absent (or falsy)
attributes; `placeholder` is `some m` when the attribute is present, with `m`
the optional `.message` sub-attribute. -/
structure Msg where
  id : String
  user_id : Option Nat := none
  timestamp : Option TsStr := none
  text : Option String := none
  item_type : Option String := none
  media : Option MediaAttr := none
  link : Option LinkAttr := none
  animated_media : Bool := false
  voice_media : Bool := false
  story_share : Bool := false
  felix_share : Bool := false
  clip : Bool := false
  placeholder : Option (Option String) := none
deriving DecidableEq, Repr

/-- the `media` object inside one `visual_media` entry of a raw API item:
`video_versions` is a list of versions each with an optional `url`;
`image_versions2`, when present, holds a `candidates` list of optional urls. -/
structure RawMediaObj where
  video_versions : List (Option String) := []
  image_versions2 : Option (List (Option String)) := none
deriving DecidableEq, Repr

/-- one entry of a raw item's `visual_media` array. -/
structure VisualMediaEntry where
  media : RawMediaObj
deriving DecidableEq, Repr

/-- one entry of a raw item's `generic_xma` array: `preview_url_info` is
`some u` when the key is present and truthy, with `u` its optional `url`. -/
structure XmaEntry where
  preview_url_info : Option (Option String) := none
deriving DecidableEq, Repr

/-- one entry of a `media_share`'s `carousel_media` array. -/
structure CarouselEntry where
  image_versions2 : Option (List (Option String)) := none
deriving DecidableEq, Repr

/-- the `media_share` object of a raw API item. -/
structure MediaShareObj where
  carousel_media : List CarouselEntry := []
  image_versions2 : Option (List (Option String)) := none
deriving DecidableEq, Repr

/-- a raw API thread item as fetched by `private_request`.  `timestamp` is the
integer epoch instant encoded by the item's microsecond timestamp (`none` =
missing or falsy); the media sub-structures are used by `process_message`
through the raw-item cache. -/
structure RawItem where
  item_id : Option String := none
  timestamp : Option Int := none
  visual_media : List VisualMediaEntry := []
  generic_xma : Option (List XmaEntry) := none
  media_share : Option MediaShareObj := none
deriving DecidableEq, Repr

/-- the download oracle: `photo url tag` / `video url tag` give the stored
relative path of a successful download, `none` on failure.  The timestamp used
for the file name only influences the returned path, which the oracle already
abstracts. -/
structure Dl where
  photo : String → String → Option String
  video : String → String → Option String

/-- Python truthiness of an optional string attribute: an absent attribute and
an empty string are both falsy. -/
def strTruthy : Option String → Option String
  | some s => if s.isEmpty then none else some s
  | none => none

/-- the sender tag of `process_message` / `is_duplicate`:
`f"user_{message.user_id}"`, or `"unknown"` when the attribute is absent. -/
def userTag (m : Msg) : String :=
  match m.user_id with
  | some uid => "user_" ++ toString uid
  | none => "unknown"

/-- `InstagramDMLogger.convert_to_melbourne_time`: `None` stays `None`,
a parseable timestamp is converted to the Melbourne timezone (`dateutil`
`astimezone` interprets a naive datetime in the process-local timezone
`localOff`), an unparsable string is returned unchanged. -/
def convert_to_melbourne_time (localOff melbOff : Int) : Option TsStr → Option TsStr
  | none => none
  | some (.dt w o) => some (.dt ((w - o.getD localOff) + melbOff) (some melbOff))
  | some (.raw s) => if s.isEmpty then none else some (.raw s)

/-- the `visual_media` download loop of `process_message`: for each entry,
download the first video version if present, otherwise the first image
candidate, collecting `{"type", "path"}` items for successful downloads. -/
def visualMediaPaths (dl : Dl) (index : Nat) : Nat → List VisualMediaEntry → List MediaItemRec
  | _, [] => []
  | vmIdx, vm :: rest =>
    let media_obj := vm.media
    let here : List MediaItemRec :=
      if ¬media_obj.video_versions.isEmpty then
        match media_obj.video_versions.head? with
        | some (some u) =>
          match dl.video u ("multi" ++ toString index ++ "_" ++ toString vmIdx) with
          | some p => [⟨"video", p⟩]
          | none => []
        | _ => []
      else
        match media_obj.image_versions2 with
        | some candidates =>
          match candidates.head? with
          | some (some u) =>
            match dl.photo u ("multi" ++ toString index ++ "_" ++ toString vmIdx) with
            | some p => [⟨"photo", p⟩]
            | none => []
          | _ => []
        | none => []
    here ++ visualMediaPaths dl index (vmIdx + 1) rest

/-- the `generic_xma` download loop of `process_message`: download each entry's
`preview_url_info.url`, collecting the paths of the successful downloads. -/
def xmaPaths (dl : Dl) (index : Nat) : Nat → List XmaEntry → List String
  | _, [] => []
  | i, x :: rest =>
    let here : List String :=
      match x.preview_url_info with
      | some (some u) =>
        match dl.photo u ("album" ++ toString index ++ "_" ++ toString i) with
        | some p => [p]
        | none => []
      | _ => []
    here ++ xmaPaths dl index (i + 1) rest

/-- the `carousel_media` download loop of `process_message`: download each
entry's first image candidate, collecting the successful paths. -/
def carouselPaths (dl : Dl) (index : Nat) : Nat → List CarouselEntry → List String
  | _, [] => []
  | i, c :: rest =>
    let here : List String :=
      match c.image_versions2 with
      | some candidates =>
        match candidates.head? with
        | some (some u) =>
          match dl.photo u ("share" ++ toString index ++ "_" ++ toString i) with
          | some p => [p]
          | none => []
        | _ => []
      | none => []
    here ++ carouselPaths dl index (i + 1) rest

/-- the `visual_media` burst block of `process_message` (lines 437-475 of
`main.py`): when the raw-item cache holds the message with a truthy
`visual_media` array and at least one sub-download succeeds, return a
`multi_media` record; otherwise fall through (`none`). -/
def burstRecord (cache : List (String × RawItem)) (dl : Dl) (message_id : String)
    (timestamp : Option TsStr) (username : String) (index : Nat) :
    Option (Record × Nat) :=
  match cache.lookup message_id with
  | some rawItem =>
    if rawItem.visual_media.isEmpty then none
    else
      let media_paths := visualMediaPaths dl index 0 rawItem.visual_media
      if media_paths.isEmpty then none
      else some ({ timestamp := timestamp, user := username, type := "multi_media",
                   media_items := some media_paths,
                   item_count := some media_paths.length },
                 media_paths.length)
  | none => none

/-- the `media_share` extraction block of `process_message` (lines 526-566):
a carousel share yields a `shared_album` record, a single image share a
`shared_photo` record; every failing path falls through (`none`) to the
`shared_media` placeholder. -/
def mediaShareRecord (cache : List (String × RawItem)) (dl : Dl) (message_id : String)
    (timestamp : Option TsStr) (username : String) (index : Nat) :
    Option (Record × Nat) :=
  match cache.lookup message_id with
  | some rawItem =>
    match rawItem.media_share with
    | some media =>
      if ¬media.carousel_media.isEmpty then
        let album_paths := carouselPaths dl index 0 media.carousel_media
        if album_paths.isEmpty then none
        else some ({ timestamp := timestamp, user := username,
                     type := "shared_album", photo_paths := some album_paths,
                     item_count := some album_paths.length }, album_paths.length)
      else
        match media.image_versions2 with
        | some candidates =>
          match candidates.head? with
          | some (some u) =>
            match dl.photo u (toString index) with
            | some p =>
              some ({ timestamp := timestamp, user := username,
                      type := "shared_photo", photo_path := some p }, 1)
            | none => none
          | _ => none
        | none => none
    | none => none
  | none => none

/-- the catch-all block of `process_message` (lines 601-635): link, animated
media, voice note, story/reel share, clip, placeholder, or a generic
`[item_type]` entry with the debug-attribute dump. -/
def catchAllRecord (timestamp : Option TsStr) (username : String) (m : Msg) :
    Option (Record × Nat) :=
  let item_type := m.item_type.getD "unknown"
  let base : Record := { timestamp := timestamp, user := username, type := item_type }
  match m.link with
  | some l =>
    some ({ base with
              content := some ("[link: " ++ l.text.getD "link" ++ "]"),
              url := some l.url }, 0)
  | none =>
    if m.animated_media then
      some ({ base with content := some "[animated media/GIF]" }, 0)
    else if m.voice_media then
      some ({ base with content := some "[voice message]" }, 0)
    else if m.story_share then
      some ({ base with content := some "[story share]" }, 0)
    else if m.felix_share then
      some ({ base with content := some "[reel share]" }, 0)
    else if m.clip then
      some ({ base with content := some "[clip/reel]" }, 0)
    else
      match m.placeholder with
      | some pm =>
        some ({ base with content := some ("[" ++ pm.getD "placeholder" ++ "]") }, 0)
      | none =>
        some ({ base with
                  content := some ("[" ++ item_type ++ "]"),
                  debug_attrs := true }, 0)

/-- `InstagramDMLogger.process_message`.  Returns `some (record, media_count)`
for every branch that reaches a `return` statement; returns `none` on the two
paths (single photo and single video with a failed download) where the Python
function falls off its end and implicitly returns `None`. -/
def process_message (localOff melbOff : Int) (cache : List (String × RawItem)) (dl : Dl)
    (m : Msg) (index : Nat) : Option (Record × Nat) :=
  let username := userTag m
  let timestamp := convert_to_melbourne_time localOff melbOff m.timestamp
  let message_id := m.id
  match burstRecord cache dl message_id timestamp username index with
  | some r => some r
  | none =>
    match strTruthy m.text with
    | some t =>
      some ({ timestamp := timestamp, user := username, type := "text",
              content := some t }, 0)
    | none =>
      if m.item_type = some "generic_xma" then
        let album_paths : List String :=
          match cache.lookup message_id with
          | some rawItem =>
            match rawItem.generic_xma with
            | some xl => xmaPaths dl index 0 xl
            | none => []
          | none => []
        if album_paths.isEmpty then
          some ({ timestamp := timestamp, user := username, type := "album",
                  content := some "[album - could not extract photos]" }, 0)
        else
          some ({ timestamp := timestamp, user := username, type := "album",
                  photo_paths := some album_paths,
                  item_count := some album_paths.length }, album_paths.length)
      else if m.item_type = some "media_share" then
        match mediaShareRecord cache dl message_id timestamp username index with
        | some r => some r
        | none =>
          some ({ timestamp := timestamp, user := username, type := "shared_media",
                  content := some "[shared media - could not extract]" }, 0)
      else
        match m.media with
        | some media =>
          match strTruthy media.thumbnail_url with
          | some u =>
            match dl.photo u (toString index) with
            | some p =>
              some ({ timestamp := timestamp, user := username, type := "photo",
                      photo_path := some p }, 1)
            | none => none
          | none =>
            match strTruthy media.video_url with
            | some u =>
              match dl.video u (toString index) with
              | some p =>
                some ({ timestamp := timestamp, user := username, type := "video",
                        video_path := some p }, 1)
              | none => none
            | none => catchAllRecord timestamp username m
        | none => catchAllRecord timestamp username m

/-- the composite duplicate-suppression key
`f"{timestamp_str}_{user}_{content}"`, modelled as a structured triple (the
underscore-joined rendering is treated as injective). -/
structure DupKey where
  ts : TsStr
  user : String
  content : String
deriving DecidableEq, Repr

/-- the content part of the key `is_duplicate` builds for a fetched message:
text prefix for text messages, `"media_photo"` for any message with a truthy
`media` attribute, `"media_album"` for `generic_xma`, else empty. -/
def dupContentTag (m : Msg) : String :=
  match strTruthy m.text with
  | some t => t.take 50
  | none =>
    match m.media with
    | some _ => "media_photo"
    | none => if m.item_type = some "generic_xma" then "media_album" else ""

/-- `InstagramDMLogger.is_duplicate`: membership of the fetched message's key
in the index built from disk at run start. -/
def is_duplicate (index : List DupKey) (m : Msg) : Bool :=
  match m.timestamp with
  | some ts => if ts.truthy then index.contains ⟨ts, userTag m, dupContentTag m⟩ else false
  | none => false

/-- the key `load_existing_messages` derives from one stored record: text
records contribute their content's first 50 characters, all other types the
tag `media_{type}`; records lacking a truthy timestamp or user contribute
nothing. -/
def recordKey (r : Record) : Option DupKey :=
  let content := if r.type = "text" then (r.content.getD "").take 50 else "media_" ++ r.type
  match r.timestamp with
  | some ts => if ts.truthy && !r.user.isEmpty then some ⟨ts, r.user, content⟩ else none
  | none => none

/-- the Fingerprint Index built by `load_existing_messages`. -/
def build_index (records : List Record) : List DupKey :=
  records.filterMap recordKey

/-- the string-comparison fallback of the newest-timestamp computation
(`timestamp_str > str(newest_timestamp)` under a bare `except`). -/
def strGtFallback (tsStr : String) (acc : Option NewestVal) : Option NewestVal :=
  match acc with
  | none => some (.strv tsStr)
  | some nv => if decide (nv.render < tsStr) then some (.strv tsStr) else acc

/-- one step of the newest-timestamp fold of `load_existing_messages`:
parse the stored timestamp and compare with `>`; on a parse failure or a
naive/aware comparison `TypeError`, fall back to string comparison. -/
def newestStep (acc : Option NewestVal) (tsOpt : Option TsStr) : Option NewestVal :=
  match tsOpt with
  | none => acc
  | some ts =>
    if ¬ts.truthy then acc
    else
      match ts with
      | .dt w o =>
        match acc with
        | none => some (.dtv w o)
        | some (.dtv w' o') =>
          match dtGt (w, o) (w', o') with
          | some true => some (.dtv w o)
          | some false => acc
          | none => strGtFallback (TsStr.render (.dt w o)) acc
        | some (.strv _) => strGtFallback (TsStr.render (.dt w o)) acc
      | .raw s => strGtFallback s acc

/-- the `newest_message_timestamp` computed by `load_existing_messages`. -/
def newest_of (records : List Record) : Option NewestVal :=
  records.foldl (fun acc r => newestStep acc r.timestamp) none

/-- prepend one scanned item's `(item_id, item)` pair when the id is truthy. -/
def itemKeep (it : RawItem) (restPairs : List (String × RawItem)) : List (String × RawItem) :=
  match it.item_id with
  | some id => (id, it) :: restPairs
  | none => restPairs

/-- the per-batch item scan of the update run in `fetch_messages`: an item with
a parseable timestamp is kept iff its `fromtimestamp`-parsed, UTC-stamped value
(`t + localOff`) is newer than the stored newest (`w - off`, naive stamped as
UTC); the first item failing this stops the scan.  Items with a missing
timestamp, with no stored newest, or whose comparison raises (stored newest
degraded to a string) are kept conservatively. -/
def scanItems (localOff : Int) (newest : Option NewestVal) :
    List RawItem → List (String × RawItem) × Bool
  | [] => ([], false)
  | it :: rest =>
    match it.timestamp, newest with
    | some t, some (.dtv w o) =>
      if w - o.getD 0 < t + localOff then
        let r := scanItems localOff newest rest
        (itemKeep it r.1, r.2)
      else ([], true)
    | some _, some (.strv _) =>
      let r := scanItems localOff newest rest
      (itemKeep it r.1, r.2)
    | _, _ =>
      let r := scanItems localOff newest rest
      (itemKeep it r.1, r.2)

/-- the pagination loop of the update run: scan up to `fuel` batches (the code
uses `max_batches = 100`), stopping at the overlap boundary or when the cursor
chain (the batch list) ends; returns the kept `(id, item)` pairs and the number
of batches fetched. -/
def fetchBatches (localOff : Int) (newest : Option NewestVal) :
    Nat → List (List RawItem) → List (String × RawItem) × Nat
  | _, [] => ([], 0)
  | 0, _ :: _ => ([], 0)
  | fuel + 1, b :: rest =>
    let r := scanItems localOff newest b
    if r.2 then (r.1, 1)
    else
      let r₂ := fetchBatches localOff newest fuel rest
      (r.1 ++ r₂.1, r₂.2 + 1)

/-- fuel-driven chunking helper for pagination batches. -/
def batchesOfAux (n : Nat) : Nat → List α → List (List α)
  | 0, _ => []
  | _, [] => []
  | fuel + 1, x :: xs => ((x :: xs).take n) :: batchesOfAux n fuel ((x :: xs).drop n)

/-- the remote thread served in pagination batches of `n` items. -/
def batchesOf (n : Nat) (l : List α) : List (List α) := batchesOfAux n l.length l

/-- the raw-item cache as built from fetched raw items
(`raw_message_items[item['item_id']] = item` for items carrying an id). -/
def buildRawCache (items : List RawItem) : List (String × RawItem) :=
  items.filterMap (fun it => it.item_id.map (fun id => (id, it)))

/-- one remote message of the thread, in both its raw-API and client-library
views; the thread is served newest-first. -/
structure FeedMsg where
  raw : RawItem
  msg : Msg
deriving DecidableEq, Repr

/-- `InstagramDMLogger.fetch_messages`: a first run fetches the whole thread
(capped at 50000 messages, raw items capped at 2500 batches of 20); an update
run paginates with the early-stop scan, then filters the re-fetched message
objects to the collected new item ids.  Returns the messages to process and
the raw-item cache. -/
def fetch_messages (localOff : Int) (remote : List FeedMsg) (newest : Option NewestVal)
    (is_first_run : Bool) : List Msg × List (String × RawItem) :=
  if is_first_run then
    ((remote.map FeedMsg.msg).take 50000, buildRawCache ((remote.map FeedMsg.raw).take 50000))
  else
    let r := fetchBatches localOff newest 100 (batchesOf 20 (remote.map FeedMsg.raw))
    let newIds := r.1.map Prod.fst
    let fetched := (remote.map FeedMsg.msg).take (20 * r.2)
    (fetched.filter (fun m => newIds.contains m.id), r.1)

/-- the post-fetch fallback of `fetch_messages`: when the raw cache is still
empty, fill it from one raw request of up to 100 items. -/
def ensureRawCache (remote : List FeedMsg) (cache : List (String × RawItem)) :
    List (String × RawItem) :=
  if cache.isEmpty then buildRawCache ((remote.map FeedMsg.raw).take 100) else cache

/-- the message-processing loop of `run` (step 6): enumerate the fetched
messages, skip duplicates, process the rest at index `len(existing) + idx`
(the index counter advances on skipped messages too).  A `process_message`
that returns `None` makes the tuple unpacking in `run` raise, modelled as an
`Except.error`. -/
def processLoop (localOff melbOff : Int) (cache : List (String × RawItem)) (dl : Dl)
    (index : List DupKey) : Nat → List Msg → Except String (List Record × Nat)
  | _, [] => .ok ([], 0)
  | k, m :: ms =>
    if is_duplicate index m then processLoop localOff melbOff cache dl index (k + 1) ms
    else
      match process_message localOff melbOff cache dl m k with
      | none => .error "TypeError: cannot unpack non-iterable NoneType object"
      | some (e, mc) =>
        match processLoop localOff melbOff cache dl index (k + 1) ms with
        | .error s => .error s
        | .ok (es, mcs) => .ok (e :: es, mc + mcs)

/-- `InstagramDMLogger.save_messages`: prepend the new records, write the whole
array, re-read it (`reread` models what the re-read observes, e.g. external
interference) and report success iff the observed record count matches.
Returns the success flag and the written array. -/
def save_messages (existing new_entries : List Record)
    (reread : List Record → List Record) : Bool × List Record :=
  let all_messages := new_entries ++ existing
  let observed := reread all_messages
  (decide (observed.length = all_messages.length), all_messages)

/-- the fetch-and-process pipeline of `run` up to the new-record list:
load the index and newest timestamp from the stored file, branch on
first-run vs update-run, fetch, and run the processing loop. -/
def newEntriesOf (localOff melbOff : Int) (dl : Dl) (remote : List FeedMsg)
    (file : List Record) : Except String (List Record × Nat) :=
  let index := build_index file
  let newest := newest_of file
  let is_first_run := file.isEmpty
  let fetched := fetch_messages localOff remote newest is_first_run
  let cache := ensureRawCache remote fetched.2
  processLoop localOff melbOff cache dl index file.length fetched.1

/-- one synchronization run (`InstagramDMLogger.run`) acting on the stored
`conversation.json` contents: compute the new records, and only when there is
at least one, save prepend-and-rewrite; an empty new-record list leaves the
file untouched.  The result is the stored array after the run. -/
def run_once (localOff melbOff : Int) (dl : Dl) (remote : List FeedMsg)
    (file : List Record) : Except String (List Record) :=
  match newEntriesOf localOff melbOff dl remote file with
  | .error s => .error s
  | .ok (entries, _) =>
    if entries.isEmpty then .ok file
    else
      let saved := save_messages file entries (fun l => l)
      if saved.1 then .ok saved.2 else .error "save mismatch"

/-- `InstagramDMLogger.find_or_create_conversation_folder`: with matching
folders present, `existing_folders[-1]` — the last match — is chosen; only
otherwise is a fresh folder created. -/
def find_or_create_conversation_folder (existing_folders : List String)
    (fresh_name : String) : String :=
  match existing_folders.getLast? with
  | some f => f
  | none => fresh_name

/-- what the transcript renderer shows for a timestamp: `N/A` or a formatted
wall-clock value. -/
inductive RenderedTs where
  | na
  | wall (w : Int)
deriving DecidableEq, Repr

/-- Python `datetime.fromisoformat` on a stored timestamp string. -/
def pyFromIsoFormat : TsStr → Option (Int × Option Int)
  | .dt w o => some (w, o)
  | .raw _ => none

/-- Python `dt.replace(tzinfo=ZoneInfo('UTC'))`: the wall clock is kept and the
original offset, if any, is discarded. -/
def pyReplaceTzUTC (d : Int × Option Int) : Int × Option Int := (d.1, some 0)

/-- Python `dt.astimezone(melbourne)`: convert to the instant (a naive datetime
is interpreted in the process-local timezone `localOff`) and re-express it in
Melbourne time; `offAt` gives the Melbourne UTC offset at a given instant. -/
def pyAstimezone (offAt : Int → Int) (d : Int × Option Int) (localOff : Int) :
    Int × Option Int :=
  let instant := d.1 - d.2.getD localOff
  (instant + offAt instant, some (offAt instant))

/-- the timestamp formatting of `convert_json_to_markdown` (lines 65-74):
parse, stamp as UTC, convert to Melbourne, format the wall clock; a missing or
unparsable timestamp renders as `N/A`. -/
def renderTimestamp (offAt : Int → Int) : Option TsStr → RenderedTs
  | none => .na
  | some ts =>
    if ¬ts.truthy then .na
    else
      match pyFromIsoFormat ts with
      | none => .na
      | some d => .wall (pyAstimezone offAt (pyReplaceTzUTC d) 0).1

/-- one rendered transcript block; the per-type body text is abstracted to the
record's type tag, keeping the sender mapping and the timestamp formatting. -/
structure Block where
  sender : String
  shown_ts : RenderedTs
  kind : String
deriving DecidableEq, Repr

/-- the per-record rendering of `convert_json_to_markdown`, including the
hardcoded sender-id mapping. -/
def renderOne (offAt : Int → Int) (r : Record) : Block :=
  { sender := if r.user = "user_564826454" then "Ivan" else "Phuong Anh",
    shown_ts := renderTimestamp offAt r.timestamp,
    kind := r.type }

/-- the transcript writing loop: iterate over `reversed(messages)` and emit
one block per record, in file order. -/
def writeTranscript (offAt : Int → Int) (msgs : List Record) : List Block :=
  msgs.reverse.foldl (fun acc m => acc ++ [renderOne offAt m]) []

/-- the array written by `save_messages`: new records prepended to the
existing ones. -/
def save_list (existing new_entries : List Record) : List Record :=
  new_entries ++ existing

/-- the instant encoded by a record's timestamp (naive read as UTC, unparsable
or missing mapped to 0); used to state newest-first ordering. -/
def recInstant (r : Record) : Int :=
  match r.timestamp with
  | some (.dt w (some o)) => w - o
  | some (.dt w none) => w
  | _ => 0

/-- a download oracle on which every download fails. -/
def dlNone : Dl := ⟨fun _ _ => none, fun _ _ => none⟩

/-- the number of payload fields among `content`, `photo_path`, `video_path`,
`photo_paths`, `media_items` present on a record. -/
def payloadCount (r : Record) : Nat :=
  (if r.content.isSome then 1 else 0) + (if r.photo_path.isSome then 1 else 0) +
    (if r.video_path.isSome then 1 else 0) + (if r.photo_paths.isSome then 1 else 0) +
    (if r.media_items.isSome then 1 else 0)

/-- C2 failing input: a message carrying a single photo whose download fails.
`process_message` reaches the photo branch, the download returns no path, no
branch returns, and the Python function implicitly returns `None`; the tuple
unpacking `entry, media_count = self.process_message(...)` in `run` then
raises `TypeError`, aborting the run instead of producing a placeholder
record and continuing. -/
def photoMsgC2 : Msg :=
  { id := "p1", user_id := some 7, timestamp := some (.dt 100 (some 0)),
    media := some { thumbnail_url := some "http://host/p.jpg" } }

/-- the raw-API view of the C2 failing input. -/
def photoRawC2 : RawItem := { item_id := some "p1", timestamp := some 100 }

/-- the C7 counterexample input: a shared link message. -/
def linkMsgC7 : Msg :=
  { id := "l1", user_id := some 7, timestamp := some (.dt 100 (some 0)),
    item_type := some "link",
    link := some { text := some "check this", url := some "http://example.com" } }

/-- the record `process_message` produces for `linkMsgC7`. -/
def linkRecC7 : Record :=
  { timestamp := some (.dt 760 (some 660)), user := "user_7", type := "link",
    content := some "[link: check this]", url := some (some "http://example.com") }

/-- the parsed comparison value of a raw item's timestamp (`0` when absent;
only used under parseability hypotheses). -/
def itVal (it : RawItem) : Int := it.timestamp.getD 0

/-- C4 counterexample inputs: two distinct text messages from the same sender
at the same instant whose contents agree on the first 50 characters. -/
def msgA_C4 : Msg :=
  { id := "a", user_id := some 1, timestamp := some (.dt 100 (some 0)),
    text := some (String.mk (List.replicate 60 'a')) }

/-- the second C4 message: same fingerprint, different content. -/
def msgB_C4 : Msg :=
  { id := "b", user_id := some 1, timestamp := some (.dt 100 (some 0)),
    text := some (String.mk (List.replicate 50 'a' ++ List.replicate 10 'b')) }

/-- the raw-API view of `msgA_C4`. -/
def rawA_C4 : RawItem := { item_id := some "a", timestamp := some 100 }

/-- the raw-API view of `msgB_C4`. -/
def rawB_C4 : RawItem := { item_id := some "b", timestamp := some 100 }

/-- the stored record produced for `msgA_C4`. -/
def recA_C4 : Record :=
  { timestamp := some (.dt 760 (some 660)), user := "user_1", type := "text",
    content := some (String.mk (List.replicate 60 'a')) }

/-- the stored record produced for `msgB_C4`. -/
def recB_C4 : Record :=
  { timestamp := some (.dt 760 (some 660)), user := "user_1", type := "text",
    content := some (String.mk (List.replicate 50 'a' ++ List.replicate 10 'b')) }

/-- C1 counterexample feed, the spec's own scenario: items at instants
`T+2, T+1, T, T-1` around a stored newest at instant `T = 100`. -/
def itmP2_C1 : RawItem := { item_id := some "p2", timestamp := some 102 }

/-- the `T+1` item of the C1 counterexample feed. -/
def itmP1_C1 : RawItem := { item_id := some "p1", timestamp := some 101 }

/-- the `T` item of the C1 counterexample feed — equal to the stored newest,
so not strictly newer. -/
def itmT_C1 : RawItem := { item_id := some "t", timestamp := some 100 }

/-- the `T-1` item of the C1 counterexample feed — strictly older than the
stored newest. -/
def itmM1_C1 : RawItem := { item_id := some "m1", timestamp := some 99 }

/-- a one-message remote thread shared by several concrete scenarios. -/
def fmW : FeedMsg :=
  ⟨{ item_id := some "m1", timestamp := some 100 },
   { id := "m1", user_id := some 1, timestamp := some (.dt 100 (some 0)),
     text := some "hello" }⟩

/-- the record a run at Melbourne offset 660 stores for `fmW`. -/
def recW : Record :=
  { timestamp := some (.dt 760 (some 660)), user := "user_1", type := "text",
    content := some "hello" }

/-! ## Helper lemmas -/

theorem lookup_some_mem {α β : Type} [BEq α] [LawfulBEq α] :
    ∀ {l : List (α × β)} {a : α} {b : β}, l.lookup a = some b → (a, b) ∈ l := by
  intro l
  induction l with
  | nil => intro a b h; exact absurd h (by simp [List.lookup])
  | cons p rest ih =>
    intro a b h
    obtain ⟨k, v⟩ := p
    rw [List.lookup] at h
    by_cases hk : a == k
    · simp only [hk] at h
      obtain rfl : v = b := by injection h
      have : a = k := eq_of_beq hk
      subst this
      exact List.mem_cons_self _ _
    · simp only [Bool.not_eq_true] at hk
      simp only [hk] at h
      exact List.mem_cons_of_mem _ (ih h)

theorem scanItems_spec (localOff nw : Int) (no : Option Int) :
    ∀ l : List RawItem,
      (∀ it ∈ l, it.timestamp.isSome) →
      (∀ it ∈ l, it.item_id.isSome) →
      (scanItems localOff (some (.dtv nw no)) l).1.map Prod.snd =
          l.takeWhile (fun it => decide (nw - no.getD 0 < itVal it + localOff)) ∧
        (scanItems localOff (some (.dtv nw no)) l).2 =
          l.any (fun it => decide (itVal it + localOff ≤ nw - no.getD 0)) := by
  intro l
  induction l with
  | nil => intro _ _; exact ⟨rfl, rfl⟩
  | cons it rest ih =>
    intro hp hid
    obtain ⟨t, ht⟩ := Option.isSome_iff_exists.mp (hp it (List.mem_cons_self _ _))
    obtain ⟨id, hid'⟩ := Option.isSome_iff_exists.mp (hid it (List.mem_cons_self _ _))
    have hval : itVal it = t := by simp [itVal, ht]
    obtain ⟨ih₁, ih₂⟩ := ih (fun x hx => hp x (List.mem_cons_of_mem _ hx))
      (fun x hx => hid x (List.mem_cons_of_mem _ hx))
    by_cases hlt : nw - no.getD 0 < t + localOff
    · have hd : decide (t + localOff ≤ nw - no.getD 0) = false :=
        decide_eq_false (by omega)
      constructor
      · simp only [scanItems, ht]
        rw [if_pos hlt]
        simp [itemKeep, hid', List.takeWhile_cons, hval, hlt, ih₁]
      · simp only [scanItems, ht]
        rw [if_pos hlt]
        simp [List.any_cons, hval, hd, ih₂]
    · have hd : decide (nw - no.getD 0 < t + localOff) = false := decide_eq_false hlt
      have hd' : decide (t + localOff ≤ nw - no.getD 0) = true :=
        decide_eq_true (by omega)
      constructor
      · simp only [scanItems, ht]
        rw [if_neg hlt]
        simp [List.takeWhile_cons, hval, hd]
      · simp only [scanItems, ht]
        rw [if_neg hlt]
        simp [List.any_cons, hval, hd']

theorem filter_newer_eq_takeWhile (localOff nwI : Int) :
    ∀ l : List RawItem, l.Pairwise (fun a b => itVal b < itVal a) →
      l.filter (fun it => decide (nwI < itVal it + localOff)) =
        l.takeWhile (fun it => decide (nwI < itVal it + localOff)) := by
  intro l
  induction l with
  | nil => intro _; rfl
  | cons it rest ih =>
    intro hpw
    obtain ⟨hall, hrest⟩ := List.pairwise_cons.mp hpw
    by_cases hp : nwI < itVal it + localOff
    · simp only [List.filter_cons, List.takeWhile_cons, hp]
      simp [ih hrest]
    · have hd : decide (nwI < itVal it + localOff) = false := decide_eq_false hp
      simp only [List.filter_cons, List.takeWhile_cons, hd]
      simp only [Bool.false_eq_true, if_false]
      exact List.filter_eq_nil_iff.mpr fun b hb => by
        have := hall b hb
        simp only [decide_eq_true_eq]
        omega

theorem burstRecord_payload {cache : List (String × RawItem)} {dl : Dl}
    {message_id : String} {timestamp : Option TsStr} {username : String}
    {index : Nat} {r : Record} {n : Nat}
    (h : burstRecord cache dl message_id timestamp username index = some (r, n)) :
    payloadCount r = 1 ∧ (r.url.isSome → r.content.isSome) := by
  unfold burstRecord at h
  dsimp only at h
  repeat' split at h
  all_goals simp only [Option.some.injEq, Prod.mk.injEq, reduceCtorEq] at h
  obtain ⟨h₁, h₂⟩ := h
  subst h₁
  simp [payloadCount]

theorem mediaShareRecord_payload {cache : List (String × RawItem)} {dl : Dl}
    {message_id : String} {timestamp : Option TsStr} {username : String}
    {index : Nat} {r : Record} {n : Nat}
    (h : mediaShareRecord cache dl message_id timestamp username index = some (r, n)) :
    payloadCount r = 1 ∧ (r.url.isSome → r.content.isSome) := by
  unfold mediaShareRecord at h
  dsimp only at h
  repeat' split at h
  all_goals simp only [Option.some.injEq, Prod.mk.injEq, reduceCtorEq] at h
  all_goals obtain ⟨h₁, h₂⟩ := h
  all_goals subst h₁
  all_goals simp [payloadCount]

theorem catchAllRecord_payload {timestamp : Option TsStr} {username : String}
    {m : Msg} {r : Record} {n : Nat}
    (h : catchAllRecord timestamp username m = some (r, n)) :
    payloadCount r = 1 ∧ (r.url.isSome → r.content.isSome) := by
  unfold catchAllRecord at h
  dsimp only at h
  repeat' split at h
  all_goals simp only [Option.some.injEq, Prod.mk.injEq, reduceCtorEq] at h
  all_goals obtain ⟨h₁, h₂⟩ := h
  all_goals subst h₁
  all_goals simp [payloadCount]

theorem fetchBatches_spec (localOff nw : Int) (no : Option Int) :
    ∀ (feed : List (List RawItem)) (fuel : Nat),
      feed.length ≤ fuel →
      (∀ it ∈ feed.flatten, it.timestamp.isSome) →
      (∀ it ∈ feed.flatten, it.item_id.isSome) →
      feed.flatten.Pairwise (fun a b => itVal b < itVal a) →
      (fetchBatches localOff (some (.dtv nw no)) fuel feed).1.map Prod.snd =
          feed.flatten.filter (fun it => decide (nw - no.getD 0 < itVal it + localOff)) ∧
        (fetchBatches localOff (some (.dtv nw no)) fuel feed).2 =
          min (feed.findIdx (fun b => b.any fun it =>
            decide (itVal it + localOff ≤ nw - no.getD 0)) + 1) feed.length := by
  intro feed
  induction feed with
  | nil =>
    intro fuel _ _ _ _
    constructor
    · cases fuel <;> simp [fetchBatches]
    · cases fuel <;> simp [fetchBatches]
  | cons b rest ih =>
    intro fuel hlen hp hid hpw
    cases fuel with
    | zero => simp at hlen
    | succ f =>
      have hflat : (b :: rest).flatten = b ++ rest.flatten := by simp
      rw [hflat] at hp hid hpw
      have hpb : ∀ it ∈ b, it.timestamp.isSome :=
        fun it h => hp it (List.mem_append_left _ h)
      have hidb : ∀ it ∈ b, it.item_id.isSome :=
        fun it h => hid it (List.mem_append_left _ h)
      have hprest : ∀ it ∈ rest.flatten, it.timestamp.isSome :=
        fun it h => hp it (List.mem_append_right _ h)
      have hidrest : ∀ it ∈ rest.flatten, it.item_id.isSome :=
        fun it h => hid it (List.mem_append_right _ h)
      obtain ⟨hpwb, hpwrest, hcross⟩ := List.pairwise_append.mp hpw
      obtain ⟨hs₁, hs₂⟩ := scanItems_spec localOff nw no b hpb hidb
      by_cases hstop : (scanItems localOff (some (.dtv nw no)) b).2 = true
      · have hany : (b.any fun it => decide (itVal it + localOff ≤ nw - no.getD 0)) = true :=
          hs₂ ▸ hstop
        have hred : fetchBatches localOff (some (.dtv nw no)) (f + 1) (b :: rest) =
            ((scanItems localOff (some (.dtv nw no)) b).1, 1) := by
          simp [fetchBatches, hstop]
        obtain ⟨x, hx, hxle⟩ := List.any_eq_true.mp hany
        have hxle' : itVal x + localOff ≤ nw - no.getD 0 := of_decide_eq_true hxle
        have hfrest : rest.flatten.filter
            (fun it => decide (nw - no.getD 0 < itVal it + localOff)) = [] := by
          refine List.filter_eq_nil_iff.mpr fun y hy => ?_
          have := hcross x hx y hy
          simp only [decide_eq_true_eq]
          omega
        constructor
        · rw [hred, hflat, List.filter_append, hfrest, List.append_nil, hs₁,
            filter_newer_eq_takeWhile localOff (nw - no.getD 0) b hpwb]
        · rw [hred]
          have hfi : (b :: rest).findIdx (fun bb => bb.any fun it =>
              decide (itVal it + localOff ≤ nw - no.getD 0)) = 0 := by
            simp [List.findIdx_cons, hany]
          rw [hfi]
          simp only [List.length_cons]
          omega
      · have hany : (b.any fun it => decide (itVal it + localOff ≤ nw - no.getD 0)) = false := by
          rw [← hs₂]; exact Bool.not_eq_true _ ▸ hstop
        have hall : ∀ x ∈ b, decide (nw - no.getD 0 < itVal x + localOff) = true := by
          intro x hx
          refine decide_eq_true ?_
          by_contra hc
          have hmem : (b.any fun it => decide (itVal it + localOff ≤ nw - no.getD 0)) = true :=
            List.any_eq_true.mpr ⟨x, hx, decide_eq_true (by omega)⟩
          simp [hmem] at hany
        have hred : fetchBatches localOff (some (.dtv nw no)) (f + 1) (b :: rest) =
            ((scanItems localOff (some (.dtv nw no)) b).1 ++
              (fetchBatches localOff (some (.dtv nw no)) f rest).1,
             (fetchBatches localOff (some (.dtv nw no)) f rest).2 + 1) := by
          simp [fetchBatches, hstop]
        have hlen' : rest.length ≤ f := by
          simp only [List.length_cons] at hlen
          omega
        obtain ⟨ih₁, ih₂⟩ := ih f hlen' hprest hidrest hpwrest
        constructor
        · rw [hred]
          simp only [List.map_append, hs₁, ih₁, hflat, List.filter_append]
          have : b.filter (fun it => decide (nw - no.getD 0 < itVal it + localOff)) = b :=
            List.filter_eq_self.mpr hall
          rw [← filter_newer_eq_takeWhile localOff (nw - no.getD 0) b hpwb, this]
        · rw [hred]
          have hfi : (b :: rest).findIdx (fun bb => bb.any fun it =>
              decide (itVal it + localOff ≤ nw - no.getD 0)) =
              rest.findIdx (fun bb => bb.any fun it =>
                decide (itVal it + localOff ≤ nw - no.getD 0)) + 1 := by
            simp [List.findIdx_cons, hany]
          rw [hfi, ih₂]
          simp only [List.length_cons]
          omega

theorem burstRecord_none {cache : List (String × RawItem)} {dl : Dl} {mid : String}
    {ts : Option TsStr} {user : String} {idx : Nat}
    (h : ∀ p ∈ cache, (Prod.snd p).visual_media = []) :
    burstRecord cache dl mid ts user idx = none := by
  unfold burstRecord
  cases hc : cache.lookup mid with
  | none => rfl
  | some it =>
    have hvm : it.visual_media = [] := h (mid, it) (lookup_some_mem hc)
    simp [hvm]

theorem process_message_text {localOff melbOff : Int} {cache : List (String × RawItem)}
    {dl : Dl} {m : Msg} {k : Nat} {t : String}
    (hcache : ∀ p ∈ cache, (Prod.snd p).visual_media = [])
    (htext : m.text = some t) (hne : ¬t.isEmpty) :
    process_message localOff melbOff cache dl m k =
      some ({ timestamp := convert_to_melbourne_time localOff melbOff m.timestamp,
              user := userTag m, type := "text", content := some t }, 0) := by
  unfold process_message
  dsimp only
  rw [burstRecord_none hcache]
  simp [strTruthy, htext, hne]

theorem is_duplicate_nil (m : Msg) : is_duplicate [] m = false := by
  unfold is_duplicate
  cases m.timestamp with
  | none => rfl
  | some ts => simp [List.contains]

theorem processLoop_all_text {localOff melbOff : Int} {cache : List (String × RawItem)}
    {dl : Dl} (hcache : ∀ p ∈ cache, (Prod.snd p).visual_media = []) :
    ∀ (msgs : List Msg) (k : Nat),
      (∀ m ∈ msgs, ∃ t, m.text = some t ∧ ¬t.isEmpty) →
      processLoop localOff melbOff cache dl [] k msgs =
        .ok (msgs.map (fun m =>
          { timestamp := convert_to_melbourne_time localOff melbOff m.timestamp,
            user := userTag m, type := "text", content := m.text }), 0) := by
  intro msgs
  induction msgs with
  | nil => intro k _; rfl
  | cons m ms ih =>
    intro k h
    obtain ⟨t, ht, hne⟩ := h m (List.mem_cons_self _ _)
    have hrec := ih (k + 1) (fun x hx => h x (List.mem_cons_of_mem _ hx))
    simp only [processLoop, is_duplicate_nil, Bool.false_eq_true, if_false,
      process_message_text hcache ht hne, hrec, List.map_cons]
    rw [ht]

theorem buildRawCache_prop {P : RawItem → Prop} {items : List RawItem}
    (h : ∀ it ∈ items, P it) : ∀ p ∈ buildRawCache items, P p.2 := by
  intro p hp
  obtain ⟨it, hit, hf⟩ := List.mem_filterMap.mp hp
  cases hid : it.item_id with
  | none => rw [hid] at hf; exact absurd hf (by simp)
  | some id =>
    rw [hid] at hf
    obtain rfl : (id, it) = p := by simpa using hf
    exact h it hit

theorem newest_foldl_aware_lt (o : Int) :
    ∀ (l : List Record) (w : Int),
      (∀ r ∈ l, ∃ wr, r.timestamp = some (.dt wr (some o)) ∧ wr < w) →
      l.foldl (fun acc r => newestStep acc r.timestamp) (some (.dtv w (some o))) =
        some (.dtv w (some o)) := by
  intro l
  induction l with
  | nil => intro w _; rfl
  | cons r rest ih =>
    intro w h
    obtain ⟨wr, hts, hlt⟩ := h r (List.mem_cons_self _ _)
    have hd : decide (w < wr) = false := decide_eq_false (by omega)
    have hd' : decide (wr - o > w - o) = false := decide_eq_false (by omega)
    have hstep : newestStep (some (.dtv w (some o))) r.timestamp =
        some (.dtv w (some o)) := by
      rw [hts]
      simp [newestStep, TsStr.truthy, dtGt, hd, hd']
    simp only [List.foldl_cons, hstep]
    exact ih w (fun x hx => h x (List.mem_cons_of_mem _ hx))

theorem newest_of_head_desc (o w : Int) (r₀ : Record) (rest : List Record)
    (h₀ : r₀.timestamp = some (.dt w (some o)))
    (hrest : ∀ r ∈ rest, ∃ wr, r.timestamp = some (.dt wr (some o)) ∧ wr < w) :
    newest_of (r₀ :: rest) = some (.dtv w (some o)) := by
  unfold newest_of
  simp only [List.foldl_cons]
  have hstep : newestStep none r₀.timestamp = some (.dtv w (some o)) := by
    rw [h₀]; simp [newestStep, TsStr.truthy]
  rw [hstep]
  exact newest_foldl_aware_lt o rest w hrest

theorem run_once_first_all_text (localOff melbOff : Int) (dl : Dl) (remote : List FeedMsg)
    (hvm : ∀ fm ∈ remote, fm.raw.visual_media = [])
    (htext : ∀ fm ∈ remote, ∃ t, fm.msg.text = some t ∧ ¬t.isEmpty)
    (hlen : remote.length ≤ 50000) :
    run_once localOff melbOff dl remote [] =
      .ok (remote.map fun fm =>
        ({ timestamp := convert_to_melbourne_time localOff melbOff fm.msg.timestamp,
           user := userTag fm.msg, type := "text", content := fm.msg.text } : Record)) := by
  have hvm' : ∀ it ∈ remote.map FeedMsg.raw, it.visual_media = [] := by
    intro it hit
    obtain ⟨fm, hfm, rfl⟩ := List.mem_map.mp hit
    exact hvm fm hfm
  have htake : (remote.map FeedMsg.msg).take 50000 = remote.map FeedMsg.msg :=
    List.take_of_length_le (by simpa using hlen)
  have hcache : ∀ p ∈ ensureRawCache remote
      (buildRawCache ((remote.map FeedMsg.raw).take 50000)), p.2.visual_media = [] := by
    unfold ensureRawCache
    split
    · exact buildRawCache_prop (fun it hit => hvm' it (List.take_subset _ _ hit))
    · exact buildRawCache_prop (fun it hit => hvm' it (List.take_subset _ _ hit))
  have htext' : ∀ m ∈ remote.map FeedMsg.msg, ∃ t, m.text = some t ∧ ¬t.isEmpty := by
    intro m hm
    obtain ⟨fm, hfm, rfl⟩ := List.mem_map.mp hm
    exact htext fm hfm
  have hloop := @processLoop_all_text localOff melbOff
    (ensureRawCache remote (buildRawCache ((remote.map FeedMsg.raw).take 50000))) dl
    hcache (remote.map FeedMsg.msg) 0 htext'
  have hent : newEntriesOf localOff melbOff dl remote [] =
      .ok (remote.map fun fm =>
        ({ timestamp := convert_to_melbourne_time localOff melbOff fm.msg.timestamp,
           user := userTag fm.msg, type := "text", content := fm.msg.text } : Record), 0) := by
    unfold newEntriesOf fetch_messages
    simp only [List.isEmpty_nil, if_true, List.length_nil, build_index,
      List.filterMap_nil, newest_of, List.foldl_nil, htake]
    rw [hloop]
    simp only [List.map_map]
    rfl
  unfold run_once
  rw [hent]
  dsimp only
  cases remote with
  | nil => rfl
  | cons fm fms => simp [save_messages]

theorem fetch_messages_stop (localOff : Int) (fm₁ : FeedMsg) (rest : List FeedMsg)
    (nwW nwO t₁ : Int) (ht₁ : fm₁.raw.timestamp = some t₁)
    (hstop : t₁ + localOff ≤ nwW - nwO) :
    fetch_messages localOff (fm₁ :: rest) (some (.dtv nwW (some nwO))) false = ([], []) := by
  have hbat : batchesOf 20 ((fm₁ :: rest).map FeedMsg.raw) =
      (fm₁.raw :: (rest.map FeedMsg.raw).take 19) ::
        batchesOfAux 20 (rest.map FeedMsg.raw).length
          ((fm₁.raw :: rest.map FeedMsg.raw).drop 20) := by
    simp only [List.map_cons, batchesOf, List.length_cons]
    rfl
  have hscan : scanItems localOff (some (.dtv nwW (some nwO)))
      (fm₁.raw :: (rest.map FeedMsg.raw).take 19) = ([], true) := by
    simp only [scanItems, ht₁]
    rw [if_neg (by simp only [Option.getD]; omega)]
  have hfetch : fetchBatches localOff (some (.dtv nwW (some nwO))) 100
      (batchesOf 20 ((fm₁ :: rest).map FeedMsg.raw)) = ([], 1) := by
    rw [hbat]
    show fetchBatches localOff (some (.dtv nwW (some nwO))) (99 + 1) _ = ([], 1)
    rw [fetchBatches]
    simp [hscan]
  unfold fetch_messages
  simp only [Bool.false_eq_true, if_false, hfetch]
  refine congrArg₂ Prod.mk ?_ rfl
  exact List.filter_eq_nil_iff.mpr fun m _ => by simp [List.contains]

theorem newEntriesOf_update_stop (localOff melbOff : Int) (dl : Dl)
    (fm₁ : FeedMsg) (rest : List FeedMsg) (file : List Record) (nwW nwO t₁ : Int)
    (hnewest : newest_of file = some (.dtv nwW (some nwO)))
    (hne : file.isEmpty = false)
    (ht₁ : fm₁.raw.timestamp = some t₁)
    (hstop : t₁ + localOff ≤ nwW - nwO) :
    newEntriesOf localOff melbOff dl (fm₁ :: rest) file = .ok ([], 0) := by
  unfold newEntriesOf
  dsimp only
  rw [hne, hnewest, fetch_messages_stop localOff fm₁ rest nwW nwO t₁ ht₁ hstop]
  rfl

theorem foldl_emit_eq_map (f : Record → Block) :
    ∀ (l : List Record) (acc : List Block),
      l.foldl (fun a m => a ++ [f m]) acc = acc ++ l.map f
  | [], acc => by simp
  | m :: ms, acc => by
      simp only [List.foldl_cons, List.map_cons]
      rw [foldl_emit_eq_map f ms (acc ++ [f m])]
      simp

/-! ## Claims -/

/-- C1 counterexample: the spec's own overlap scenario — a feed at instants
`T+2, T+1, T, T-1` with stored newest instant `T = 100` (all timestamps
parseable and strictly decreasing, all item ids present, two batches) — run on
a machine with a positive local UTC offset (Melbourne's 660).  The claim says
exactly the `T+2` and `T+1` items are retained and pagination stops at the
`T` item; instead all four items are retained, including the item equal to the
stored newest and the strictly older one, because `datetime.fromtimestamp`
parses items as local wall clock which the code then stamps as UTC, skewing
every item by the local offset. -/
theorem c1_counterexample :
    (fetchBatches 660 (some (.dtv 100 (some 0))) 100
          [[itmP2_C1, itmP1_C1], [itmT_C1, itmM1_C1]]).1.map Prod.snd =
        [itmP2_C1, itmP1_C1, itmT_C1, itmM1_C1] ∧
      itVal itmT_C1 ≤ 100 - 0 ∧ itVal itmM1_C1 ≤ 100 - 0 := by
  refine ⟨rfl, by decide, by decide⟩

/-- C1 (amended): on an update run with a known stored newest timestamp
(parsed value `nw` at offset `no`), over a paginated feed whose items all
carry item ids and parseable, strictly decreasing timestamps, the early-stop
pagination of `fetch_messages` retains exactly the items whose
code-normalized timestamp — the `fromtimestamp` local wall clock stamped as
UTC, i.e. the item instant plus the process-local UTC offset `localOff` — is
strictly newer than the stored newest's instant, and none failing that
comparison; pagination stops with the batch containing the first such item
(`findIdx` of the first batch holding one), fetching no batch beyond it.
When `localOff = 0` the comparison coincides with "strictly newer than
`newest_seen`" and the original claim holds; with a positive `localOff`,
items equal to or up to `localOff` older than the stored newest are also
retained (see the C1 counterexample). -/
theorem c1_overlap_stop (localOff nw : Int) (no : Option Int)
    (feed : List (List RawItem))
    (hparse : ∀ it ∈ feed.flatten, it.timestamp.isSome)
    (hid : ∀ it ∈ feed.flatten, it.item_id.isSome)
    (hdec : feed.flatten.Pairwise (fun a b => itVal b < itVal a))
    (hlen : feed.length ≤ 100) :
    (fetchBatches localOff (some (.dtv nw no)) 100 feed).1.map Prod.snd =
        feed.flatten.filter (fun it => decide (nw - no.getD 0 < itVal it + localOff)) ∧
      (fetchBatches localOff (some (.dtv nw no)) 100 feed).2 =
        min (feed.findIdx (fun b => b.any fun it =>
          decide (itVal it + localOff ≤ nw - no.getD 0)) + 1) feed.length :=
  fetchBatches_spec localOff nw no feed 100 hlen hparse hid hdec

/-- C1 witness: a concrete two-batch feed with timestamps `12, 11, 10, 9` and
stored newest `10` retains exactly the two strictly newer items and stops in
the second batch, where the overlap item sits. -/
theorem c1_overlap_stop_witness :
    (fetchBatches 0 (some (.dtv 10 (some 0))) 100
          [[{ item_id := some "a", timestamp := some 12 },
            { item_id := some "b", timestamp := some 11 }],
           [{ item_id := some "c", timestamp := some 10 },
            { item_id := some "d", timestamp := some 9 }]]).1.map Prod.snd =
        [{ item_id := some "a", timestamp := some 12 },
         { item_id := some "b", timestamp := some 11 }] ∧
      (fetchBatches 0 (some (.dtv 10 (some 0))) 100
          [[{ item_id := some "a", timestamp := some 12 },
            { item_id := some "b", timestamp := some 11 }],
           [{ item_id := some "c", timestamp := some 10 },
            { item_id := some "d", timestamp := some 9 }]]).2 = 2 := by
  have h := c1_overlap_stop 0 10 (some 0)
    [[{ item_id := some "a", timestamp := some 12 },
      { item_id := some "b", timestamp := some 11 }],
     [{ item_id := some "c", timestamp := some 10 },
      { item_id := some "d", timestamp := some 9 }]]
    (by decide) (by decide) (by decide) (by decide)
  obtain ⟨h₁, h₂⟩ := h
  refine ⟨?_, ?_⟩
  · rw [h₁]; decide
  · rw [h₂]; decide

/-- C5: `save_messages` re-reads the written file and reports success exactly
when the observed record count equals the expected total
`len(new) + len(existing)`; any differing re-read count makes it return
`False`. -/
theorem c5_save_verification (existing new_entries : List Record)
    (reread : List Record → List Record) :
    (save_messages existing new_entries reread).1 = true ↔
      (reread (new_entries ++ existing)).length =
        new_entries.length + existing.length := by
  simp [save_messages]

/-- C6 counterexample: with two matching folders on disk, folder resolution
returns the second (last) one, not the first, refuting first-match-wins. -/
theorem c6_counterexample :
    find_or_create_conversation_folder
        ["conversation_f_20240101_000000", "conversation_f_20240202_000000"]
        "conversation_f_fresh" = "conversation_f_20240202_000000" ∧
      "conversation_f_20240202_000000" ≠ "conversation_f_20240101_000000" := by
  exact ⟨rfl, by decide⟩

/-- C6 (amended): for every counterpart with at least one matching
conversation folder on disk, folder resolution selects the last matching
folder (`existing_folders[-1]`) rather than creating a new one. -/
theorem c6_amended (existing_folders : List String) (fresh_name : String)
    (h : existing_folders ≠ []) :
    find_or_create_conversation_folder existing_folders fresh_name =
      existing_folders.getLast h := by
  unfold find_or_create_conversation_folder
  rw [List.getLast?_eq_getLast existing_folders h]

/-- C6 witness: the amended claim at a concrete two-folder listing. -/
theorem c6_amended_witness :
    find_or_create_conversation_folder ["convA", "convB"] "convFresh" = "convB" := by
  have h := c6_amended ["convA", "convB"] "convFresh" (by decide)
  simpa using h

/-- C10: for every parseable stored timestamp, the transcript renderer keeps
only the wall-clock value (any original offset `off` is discarded),
reinterprets it as UTC and adds the Melbourne offset: the shown wall clock is
`w + offAt w` regardless of `off`, so a timestamp already carrying a Melbourne
offset is shifted by the UTC-to-Melbourne offset a second time. -/
theorem c10_renderer_discards_offset (offAt : Int → Int) (w : Int) (off : Option Int) :
    renderTimestamp offAt (some (.dt w off)) = .wall (w + offAt w) := by
  simp [renderTimestamp, TsStr.truthy, pyFromIsoFormat, pyReplaceTzUTC, pyAstimezone]

/-- C2: evaluating the code at the failing input — a single-photo message
whose media download fails — `process_message` returns `None` (no placeholder
record) and the run aborts with a `TypeError` instead of continuing. -/
theorem c2_photo_download_failure_aborts :
    process_message 0 660 [("p1", photoRawC2)] dlNone photoMsgC2 0 = none ∧
      run_once 0 660 dlNone [⟨photoRawC2, photoMsgC2⟩] [] =
        .error "TypeError: cannot unpack non-iterable NoneType object" := by
  exact ⟨rfl, rfl⟩

/-- C8: the stored array written by a save is the new records prepended to the
existing ones and stays newest-first whenever the new records are internally
newest-first, the existing ones are, and every new record is newer than every
existing one; and the rendered transcript emits exactly the reversed stored
array (block `i` renders stored record `N-1-i`). -/
theorem c8_ordering (offAt : Int → Int) (existing new_entries : List Record)
    (h₁ : new_entries.Pairwise (fun a b => recInstant b < recInstant a))
    (h₂ : existing.Pairwise (fun a b => recInstant b < recInstant a))
    (h₃ : ∀ a ∈ new_entries, ∀ b ∈ existing, recInstant b < recInstant a) :
    save_list existing new_entries = new_entries ++ existing ∧
      (save_list existing new_entries).Pairwise
        (fun a b => recInstant b < recInstant a) ∧
      writeTranscript offAt (save_list existing new_entries) =
        ((save_list existing new_entries).map (renderOne offAt)).reverse := by
  refine ⟨rfl, ?_, ?_⟩
  · exact List.pairwise_append.mpr ⟨h₁, h₂, h₃⟩
  · rw [writeTranscript, foldl_emit_eq_map]
    simp

/-- C8 witness: the ordering theorem at a concrete two-plus-one record store. -/
theorem c8_ordering_witness :
    (save_list [({ timestamp := some (.dt 5 (some 0)), user := "user_1", type := "text" } : Record)]
        [({ timestamp := some (.dt 9 (some 0)), user := "user_1", type := "text" } : Record),
         ({ timestamp := some (.dt 7 (some 0)), user := "user_1", type := "text" } : Record)]).Pairwise
      (fun a b => recInstant b < recInstant a) := by
  have h := c8_ordering (fun _ => 0)
    [({ timestamp := some (.dt 5 (some 0)), user := "user_1", type := "text" } : Record)]
    [({ timestamp := some (.dt 9 (some 0)), user := "user_1", type := "text" } : Record),
     ({ timestamp := some (.dt 7 (some 0)), user := "user_1", type := "text" } : Record)]
    (by decide) (by decide) (by decide)
  exact h.2.1

/-- C7 counterexample: a link message yields a record carrying both `content`
and `url`, so a produced record can carry two payload fields simultaneously,
refuting exactly-one-payload over the full field list including `url`. -/
theorem c7_counterexample :
    process_message 0 660 [] dlNone linkMsgC7 0 = some (linkRecC7, 0) ∧
      linkRecC7.content.isSome = true ∧ linkRecC7.url.isSome = true :=
  ⟨rfl, rfl, rfl⟩

/-- C7 (amended): every record produced by `process_message` has exactly one
payload field among `content`, `photo_path`, `video_path`, `photo_paths`,
`media_items`; the `url` field, when present, always accompanies `content`
(link records carry both). -/
theorem c7_amended (localOff melbOff : Int) (cache : List (String × RawItem)) (dl : Dl)
    (m : Msg) (index : Nat) (r : Record) (n : Nat)
    (h : process_message localOff melbOff cache dl m index = some (r, n)) :
    payloadCount r = 1 ∧ (r.url.isSome → r.content.isSome) := by
  unfold process_message at h
  dsimp only at h
  cases hb : burstRecord cache dl m.id
      (convert_to_melbourne_time localOff melbOff m.timestamp) (userTag m) index with
  | some v =>
    obtain ⟨r', n'⟩ := v
    rw [hb] at h
    dsimp only at h
    simp only [Option.some.injEq, Prod.mk.injEq] at h
    obtain ⟨h₁, h₂⟩ := h
    subst h₁
    exact burstRecord_payload hb
  | none =>
    rw [hb] at h
    dsimp only at h
    cases hs : mediaShareRecord cache dl m.id
        (convert_to_melbourne_time localOff melbOff m.timestamp) (userTag m) index with
    | some v =>
      obtain ⟨r', n'⟩ := v
      rw [hs] at h
      dsimp only at h
      repeat' split at h
      all_goals try simp only [Option.some.injEq, Prod.mk.injEq, reduceCtorEq] at h
      all_goals try (obtain ⟨h₁, h₂⟩ := h; subst h₁)
      all_goals first
        | exact mediaShareRecord_payload hs
        | exact catchAllRecord_payload h
        | simp [payloadCount]
    | none =>
      rw [hs] at h
      dsimp only at h
      repeat' split at h
      all_goals try simp only [Option.some.injEq, Prod.mk.injEq, reduceCtorEq] at h
      all_goals try (obtain ⟨h₁, h₂⟩ := h; subst h₁)
      all_goals first
        | exact catchAllRecord_payload h
        | simp [payloadCount]

/-- C7 witness: the amended claim at the concrete link message. -/
theorem c7_amended_witness :
    payloadCount linkRecC7 = 1 ∧ (linkRecC7.url.isSome → linkRecC7.content.isSome) :=
  c7_amended 0 660 [] dlNone linkMsgC7 0 linkRecC7 0 rfl

set_option maxRecDepth 16384 in
/-- C4 counterexample: a reachable stored state with two records sharing the
`(timestamp, user, first-50-characters)` fingerprint — a first run over two
distinct same-fingerprint messages stores both, because the Fingerprint Index
is built once at run start and never extended with records appended during
the run. -/
theorem c4_counterexample :
    run_once 0 660 dlNone [⟨rawA_C4, msgA_C4⟩, ⟨rawB_C4, msgB_C4⟩] [] =
        .ok [recA_C4, recB_C4] ∧
      recordKey recA_C4 = recordKey recB_C4 ∧ recA_C4 ≠ recB_C4 := by
  refine ⟨rfl, by decide, by decide⟩

/-- C4 (amended): a fetched message is skipped by the processing loop exactly
when `is_duplicate` finds its key — raw timestamp string, user tag, and the
`is_duplicate` content tag — in the index built from the records stored at run
start; the appended records are precisely the `process_message` results of the
non-duplicate messages, the index is not extended during the run, and stored
records may therefore come to share a fingerprint. -/
theorem c4_amended (localOff melbOff : Int) (cache : List (String × RawItem)) (dl : Dl)
    (index : List DupKey) :
    ∀ (msgs : List Msg) (k : Nat),
      (∀ p ∈ List.enumFrom k msgs, is_duplicate index p.2 = false →
        (process_message localOff melbOff cache dl p.2 p.1).isSome) →
      ∃ mc, processLoop localOff melbOff cache dl index k msgs =
        .ok ((List.enumFrom k msgs).filterMap fun p =>
          if is_duplicate index p.2 then none
          else (process_message localOff melbOff cache dl p.2 p.1).map Prod.fst, mc) := by
  intro msgs
  induction msgs with
  | nil => intro k _; exact ⟨0, rfl⟩
  | cons m ms ih =>
    intro k h
    have hcons : List.enumFrom k (m :: ms) = (k, m) :: List.enumFrom (k + 1) ms := rfl
    by_cases hd : is_duplicate index m
    · obtain ⟨mc, hmc⟩ := ih (k + 1)
        (fun p hp hnd => h p (by rw [hcons]; exact List.mem_cons_of_mem _ hp) hnd)
      refine ⟨mc, ?_⟩
      rw [hcons, List.filterMap_cons]
      simp only [hd, if_true]
      simp only [processLoop, hd, if_true]
      exact hmc
    · have hm := h (k, m) (by rw [hcons]; exact List.mem_cons_self _ _)
        (Bool.not_eq_true _ ▸ hd)
      obtain ⟨v, hv⟩ := Option.isSome_iff_exists.mp hm
      obtain ⟨e, c⟩ := v
      obtain ⟨mc, hmc⟩ := ih (k + 1)
        (fun p hp hnd => h p (by rw [hcons]; exact List.mem_cons_of_mem _ hp) hnd)
      refine ⟨c + mc, ?_⟩
      rw [hcons, List.filterMap_cons]
      simp only [hd, if_false]
      simp only [processLoop, hd, if_false, hv, hmc]
      simp [hv]

/-- C4 witness: the amended characterization at a concrete one-message run
with an empty start-of-run index. -/
theorem c4_amended_witness :
    ∃ mc, processLoop 0 660 [] dlNone [] 0 [msgA_C4] =
      .ok ((List.enumFrom 0 [msgA_C4]).filterMap fun p =>
        if is_duplicate [] p.2 then none
        else (process_message 0 660 [] dlNone p.2 p.1).map Prod.fst, mc) :=
  c4_amended 0 660 [] dlNone [] [msgA_C4] 0 (by decide)

/-- C3 counterexample: with the process-local UTC offset at Melbourne's 660
minutes, a second synchronization over the unchanged one-message thread
re-appends the already stored message — epoch timestamps are parsed with
`datetime.fromtimestamp` (local wall clock) and stamped as UTC, so the stored
newest no longer dominates, and `is_duplicate` misses because its key uses the
raw timestamp string while the index keys use the Melbourne-converted one.
The stored array after the second run differs from the first, refuting
idempotence as claimed. -/
theorem c3_counterexample :
    run_once 660 660 dlNone [fmW] [] = .ok [recW] ∧
      run_once 660 660 dlNone [fmW] [recW] = .ok [recW, recW] ∧
      ([recW, recW] : List Record) ≠ [recW] := by
  refine ⟨rfl, rfl, by decide⟩

/-- C3 (amended): over a remote thread of nonempty text messages with
parseable, strictly decreasing UTC timestamps (raw item and message views
agreeing), and provided the process-local UTC offset is not positive, running
synchronization twice appends zero records on the second run: the stored array
after the second run equals the array after the first.  With a positive local
offset the second run can re-append stored messages (see the C3
counterexample). -/
theorem c3_amended (localOff melbOff : Int) (dl : Dl) (remote : List FeedMsg)
    (hvm : ∀ fm ∈ remote, fm.raw.visual_media = [])
    (htext : ∀ fm ∈ remote, ∃ t, fm.msg.text = some t ∧ ¬t.isEmpty)
    (hts : ∀ fm ∈ remote, ∃ i, fm.raw.timestamp = some i ∧
      fm.msg.timestamp = some (.dt i (some 0)))
    (hdec : (remote.map (fun fm => fm.raw.timestamp.getD 0)).Pairwise (fun a b => b < a))
    (hlen : remote.length ≤ 50000)
    (hoff : localOff ≤ 0) :
    ∃ stored, run_once localOff melbOff dl remote [] = .ok stored ∧
      stored.length = remote.length ∧
      run_once localOff melbOff dl remote stored = .ok stored := by
  refine ⟨remote.map fun fm =>
    ({ timestamp := convert_to_melbourne_time localOff melbOff fm.msg.timestamp,
       user := userTag fm.msg, type := "text", content := fm.msg.text } : Record),
    run_once_first_all_text localOff melbOff dl remote hvm htext hlen,
    by simp, ?_⟩
  cases remote with
  | nil =>
    simpa using run_once_first_all_text localOff melbOff dl []
      (by simp) (by simp) (by simp)
  | cons fm₁ rest =>
    simp only [List.map_cons]
    obtain ⟨i₁, hraw₁, hmsg₁⟩ := hts fm₁ (List.mem_cons_self _ _)
    have hdom : ∀ fm ∈ rest, fm.raw.timestamp.getD 0 < i₁ := by
      intro fm hfm
      have hd' : List.Pairwise (fun a b => b < a)
          (fm₁.raw.timestamp.getD 0 ::
            rest.map (fun fm => fm.raw.timestamp.getD 0)) := by
        simpa using hdec
      have := (List.pairwise_cons.mp hd').1 (fm.raw.timestamp.getD 0)
        (List.mem_map_of_mem _ hfm)
      rwa [hraw₁, Option.getD_some] at this
    have hts₁ : ({ timestamp := convert_to_melbourne_time localOff melbOff fm₁.msg.timestamp,
                   user := userTag fm₁.msg, type := "text",
                   content := fm₁.msg.text } : Record).timestamp =
        some (.dt (i₁ + melbOff) (some melbOff)) := by
      show convert_to_melbourne_time localOff melbOff fm₁.msg.timestamp = _
      rw [hmsg₁]
      simp [convert_to_melbourne_time]
    have hrest : ∀ r ∈ rest.map (fun fm =>
        ({ timestamp := convert_to_melbourne_time localOff melbOff fm.msg.timestamp,
           user := userTag fm.msg, type := "text", content := fm.msg.text } : Record)),
        ∃ wr, r.timestamp = some (.dt wr (some melbOff)) ∧ wr < i₁ + melbOff := by
      intro r hr
      obtain ⟨fm, hfm, rfl⟩ := List.mem_map.mp hr
      obtain ⟨i, hrawi, hmsgi⟩ := hts fm (List.mem_cons_of_mem _ hfm)
      refine ⟨i + melbOff, ?_, ?_⟩
      · show convert_to_melbourne_time localOff melbOff fm.msg.timestamp = _
        rw [hmsgi]
        simp [convert_to_melbourne_time]
      · have hd := hdom fm hfm
        rw [hrawi, Option.getD_some] at hd
        omega
    have hnewest := newest_of_head_desc melbOff (i₁ + melbOff) _ _ hts₁ hrest
    have hent := newEntriesOf_update_stop localOff melbOff dl fm₁ rest _
      (i₁ + melbOff) melbOff i₁ hnewest rfl hraw₁ (by omega)
    unfold run_once
    rw [hent]
    rfl

/-- C3 witness: the amended idempotence at a concrete one-message thread on a
UTC-local machine. -/
theorem c3_amended_witness :
    ∃ stored, run_once 0 660 dlNone [fmW] [] = .ok stored ∧
      stored.length = ([fmW] : List FeedMsg).length ∧
      run_once 0 660 dlNone [fmW] stored = .ok stored :=
  c3_amended 0 660 dlNone [fmW]
    (by intro fm hfm; rw [List.mem_singleton] at hfm; subst hfm; rfl)
    (by intro fm hfm; rw [List.mem_singleton] at hfm; subst hfm
        exact ⟨"hello", rfl, by decide⟩)
    (by intro fm hfm; rw [List.mem_singleton] at hfm; subst hfm
        exact ⟨100, rfl, rfl⟩)
    (by decide) (by decide) (by decide)

/-- C9: whenever the duplicate-filtered list of new message entries is empty,
the run does not rewrite `conversation.json`: the stored contents after the
run equal the stored contents before it. -/
theorem c9_no_rewrite (localOff melbOff : Int) (dl : Dl) (remote : List FeedMsg)
    (file : List Record) (mc : Nat)
    (h : newEntriesOf localOff melbOff dl remote file = .ok ([], mc)) :
    run_once localOff melbOff dl remote file = .ok file := by
  simp [run_once, h]

/-- C9 witness: an update run at a UTC-local machine over an unchanged remote
thread produces no entries and leaves the stored file untouched. -/
theorem c9_no_rewrite_witness :
    run_once 0 660 dlNone [fmW] [recW] = .ok [recW] :=
  c9_no_rewrite 0 660 dlNone [fmW] [recW] 0 rfl

end InstaLog
